import Mathlib

/-!
# cake-api: administrative handlers (`cake-api/admin.go`)

A shallow embedding of the five administrative request handlers
(`banHandler`, `unbanHandler`, `inspectHandler`, `promoteHandler`, `fireHandler`)
together with the properties of the role check, the ban-history ledger and the
history rendering.

Conventions of the embedding

* A handler is a pure function from its inputs (request, executor, user service) and
  the answers of its collaborators (JSON decoding, `validateEmail`, `time.Now`, the
  repository) to the ordered list of effects it performs and the user service left behind.
* Go strings are `String`, Go `error` values are their messages, `Role` (an `int8`) is an
  integer.
-/

namespace CakeApi

/-! ## Data model -/

/-- Go `type Role int8`; only the order and the three constants matter. -/
abbrev Role := Int

/-- Go `UserRole Role = iota`. -/
def UserRole : Role := 0

/-- Go `AdminRole`. -/
def AdminRole : Role := 1

/-- Go `SuperAdminRole`. -/
def SuperAdminRole : Role := 2

/-- A Go `time.Time`: the instant, as the seconds since the Unix epoch (`Unix()`) and the
nanoseconds within the second (`Nanosecond()`), and the offset east of UTC, in seconds, that
the location of the time has at that instant (`Zone()`). -/
structure Time where
  Unix : Int
  Nanosecond : Nat
  ZoneOffset : Int
deriving DecidableEq

/-- Go `UserBanParams`. -/
structure UserBanParams where
  Email : String
  Reason : String
deriving DecidableEq

/-- Go `EmailParams`. -/
structure EmailParams where
  Email : String
deriving DecidableEq

/-- Go `type UserUnbanParams = EmailParams`. -/
abbrev UserUnbanParams := EmailParams

/-- Go `BanHistoryQuery`. -/
structure BanHistoryQuery where
  Executor : String
  IsBan : Bool
  Time : Time
  Reason : String
deriving DecidableEq

/-- Go `type BanHistory []BanHistoryQuery`. -/
abbrev BanHistory := List BanHistoryQuery

/-- Modelled from the spec: the declaration of `User` is not in `admin.go`; the spec's data
model gives it an email (unique identifier), a role, a banned flag and a ban history, which
are exactly the fields the handlers read and write. -/
structure User where
  Email : String
  Role : Role
  Banned : Bool
  BanHistory : BanHistory
deriving DecidableEq

/-! ## Collaborators -/

/-- Modelled from the spec: the user repository is not in `admin.go`; the spec describes it as
a key-value store keyed by email with `Get(email) -> User | NotFound` and
`Update(email, User) -> ok | error`, where a failed update writes nothing.  `Get` is the
current answer of the store for every key, `updateErr` is the error (if any) with which the
storage layer refuses an update. -/
structure Repository where
  Get : String → Except String User
  updateErr : String → User → Option String

/-- Modelled from the spec: `Update(email, user)`; on success the store answers `user` at
`email` and is unchanged elsewhere, on failure the store is unchanged.  The first component
is the returned error. -/
def Repository.Update (repo : Repository) (email : String) (user : User) :
    Option String × Repository :=
  match repo.updateErr email user with
  | some err => (some err, repo)
  | none =>
    (none, { repo with Get := fun key => if key = email then Except.ok user else repo.Get key })

/-- The part of Go `UserService` the handlers use: the repository.  The other field they
use, the `notifier` channel, appears as the `notify` effect. -/
structure UserService where
  repository : Repository

/-- The request as the handlers read it: the body handed to the JSON decoder and the URL
query (`r.URL.Query().Get`). -/
structure Request where
  body : String
  query : String → String

/-- Answers of the collaborators that are outside `admin.go`: the outcome of
`json.NewDecoder(r.Body).Decode` into each parameter type (`none` when it returns an error),
`validateEmail` (the returned error, if any) and `time.Now()`. -/
structure Env where
  decodeBan : String → Option UserBanParams
  decodeEmail : String → Option EmailParams
  validateEmail : String → Option String
  now : Time

/-- The observable effects of a handler, in program order. -/
inductive Effect where
  /-- Call of `us.repository.Get(email)`. -/
  | repoGet (email : String)
  /-- Call of `us.repository.Update(email, user)` and the error it returned. -/
  | repoUpdate (email : String) (user : User) (err : Option String)
  /-- Call of `handleUnprocError(err, w)`. -/
  | unprocError (err : String)
  /-- Call of `handleUnauthError(err, w)`. -/
  | unauthError (err : String)
  /-- Call of `w.WriteHeader(status)`. -/
  | writeHeader (status : Nat)
  /-- Call of `w.Write(body)`. -/
  | write (body : String)
  /-- Send of `msg` on `us.notifier`. -/
  | notify (msg : String)
deriving DecidableEq

/-- Go `http.StatusOK`. -/
def StatusOK : Nat := 200

/-! ## Timestamp formatting -/

/-- Seconds since the Unix epoch on the clock of the time's location. -/
def Time.localSec (t : Time) : Int := t.Unix + t.ZoneOffset

/-- The day the time falls on in its location, counted from 1 January 1970. -/
def Time.dayNumber (t : Time) : Int := t.localSec / 86400

/-- Seconds elapsed since midnight in the time's location. -/
def Time.secOfDay (t : Time) : Int := t.localSec % 86400

/-- The 400-year cycle of the Gregorian calendar a day number falls in, the cycles starting
on 1 March of the years divisible by 400. -/
def era (days : Int) : Int := (days + 719468) / 146097

/-- The day within the 400-year cycle, from 0. -/
def dayOfEra (days : Int) : Int := (days + 719468) % 146097

/-- The year within the 400-year cycle, from 0, years starting on 1 March. -/
def yearOfEra (days : Int) : Int :=
  (dayOfEra days - dayOfEra days / 1460 + dayOfEra days / 36524 - dayOfEra days / 146096) / 365

/-- The day within the year that starts on 1 March, from 0. -/
def dayOfYear (days : Int) : Int :=
  dayOfEra days - (365 * yearOfEra days + yearOfEra days / 4 - yearOfEra days / 100)

/-- The month within the year that starts in March: 0 is March, 11 is February. -/
def monthIndex (days : Int) : Int := (5 * dayOfYear days + 2) / 153

/-- The day of the month of a day number in the Gregorian calendar. -/
def civilDay (days : Int) : Int := dayOfYear days - (153 * monthIndex days + 2) / 5 + 1

/-- The month (1 to 12) of a day number in the Gregorian calendar. -/
def civilMonth (days : Int) : Int :=
  if monthIndex days < 10 then monthIndex days + 3 else monthIndex days - 9

/-- The year of a day number in the Gregorian calendar. -/
def civilYear (days : Int) : Int :=
  yearOfEra days + era days * 400 + (if civilMonth days ≤ 2 then 1 else 0)

/-- Go `t.Year()`. -/
def Time.Year (t : Time) : Int := civilYear t.dayNumber

/-- Go `t.Month()`. -/
def Time.Month (t : Time) : Nat := (civilMonth t.dayNumber).toNat

/-- Go `t.Day()`. -/
def Time.Day (t : Time) : Nat := (civilDay t.dayNumber).toNat

/-- Go `t.Hour()`. -/
def Time.Hour (t : Time) : Nat := (t.secOfDay / 3600).toNat

/-- Go `t.Minute()`. -/
def Time.Minute (t : Time) : Nat := (t.secOfDay % 3600 / 60).toNat

/-- Go `t.Second()`. -/
def Time.Second (t : Time) : Nat := (t.secOfDay % 60).toNat

/-- Go `time.appendInt` for the widths used by the layout verbs: an optional sign, zero
padding up to `width`, then the decimal digits. -/
def appendInt (x : Int) (width : Nat) : List Char :=
  let digits := Nat.toDigits 10 x.natAbs
  (if x < 0 then ['-'] else []) ++ List.replicate (width - digits.length) '0' ++ digits

/-- Go `time.longMonthNames`. -/
def longMonthNames : List String :=
  ["January", "February", "March", "April", "May", "June", "July", "August",
   "September", "October", "November", "December"]

/-- Go `Month.String` for the months `January .. December`. -/
def monthString (m : Nat) : String := longMonthNames.getD (m - 1) ""

/-- Go `stdZeroHour12`: the hour on the 12-hour clock, with 0 shown as 12. -/
def hour12 (h : Nat) : Nat := if h % 12 = 0 then 12 else h % 12

/-- Go `Time.Format` on a layout made of the verbs `January`, `2006`, `01`, `02`, `03`,
`04`, `05`, `06`, `15` and literal text: the layout is scanned left to right
(`nextStdChunk`), each verb is replaced by the corresponding field of `t` (`01` month,
`02` day, `03` hour on the 12-hour clock, `04` minute, `05` second, `06` two-digit year,
`15` hour, `2006` year, `January` month name) and every other character is copied. -/
def formatLayout (t : Time) : List Char → List Char
  | 'J' :: 'a' :: 'n' :: 'u' :: 'a' :: 'r' :: 'y' :: rest =>
      (monthString t.Month).toList ++ formatLayout t rest
  | '2' :: '0' :: '0' :: '6' :: rest => appendInt t.Year 4 ++ formatLayout t rest
  | '0' :: '1' :: rest => appendInt t.Month 2 ++ formatLayout t rest
  | '0' :: '2' :: rest => appendInt t.Day 2 ++ formatLayout t rest
  | '0' :: '3' :: rest => appendInt (hour12 t.Hour) 2 ++ formatLayout t rest
  | '0' :: '4' :: rest => appendInt t.Minute 2 ++ formatLayout t rest
  | '0' :: '5' :: rest => appendInt t.Second 2 ++ formatLayout t rest
  | '0' :: '6' :: rest =>
      appendInt ((t.Year.natAbs % 100 : Nat) : Int) 2 ++ formatLayout t rest
  | '1' :: '5' :: rest => appendInt t.Hour 2 ++ formatLayout t rest
  | c :: rest => c :: formatLayout t rest
  | [] => []

/-- Go `t.Format(layout)`. -/
def Time.Format (t : Time) (layout : String) : String := ⟨formatLayout t layout.toList⟩

/-- Go `const banTimeFormat`. -/
def banTimeFormat : String := "02 January 2006 01:02:03"

/-- The instant of `t` is not later than the instant of `u`. -/
def Time.notLaterThan (t u : Time) : Prop :=
  t.Unix < u.Unix ∨ (t.Unix = u.Unix ∧ t.Nanosecond ≤ u.Nanosecond)

instance (t u : Time) : Decidable (t.notLaterThan u) := by
  unfold Time.notLaterThan; infer_instance

/-! ## Handlers -/

/-- Go `banHandler`. -/
def banHandler (env : Env) (r : Request) (executor : User) (us : UserService) :
    List Effect × UserService :=
  match env.decodeBan r.body with
  | none => ([.unprocError "could not read params"], us)
  | some params =>
    match env.validateEmail params.Email with
    | some err => ([.unprocError err], us)
    | none =>
      match us.repository.Get params.Email with
      | .error getErr => ([.repoGet params.Email, .unprocError getErr], us)
      | .ok user =>
        if executor.Role ≤ user.Role then
          ([.repoGet params.Email, .unauthError "permission denied"], us)
        else
          let banHistoryQuery : BanHistoryQuery :=
            { Executor := executor.Email, IsBan := true, Time := env.now,
              Reason := params.Reason }
          let user : User :=
            { user with Banned := true, BanHistory := user.BanHistory ++ [banHistoryQuery] }
          match us.repository.Update user.Email user with
          | (some err, repo) =>
            ([.repoGet params.Email, .repoUpdate user.Email user (some err), .unprocError err],
             { us with repository := repo })
          | (none, repo) =>
            ([.repoGet params.Email, .repoUpdate user.Email user none,
              .writeHeader StatusOK,
              .write ("user " ++ user.Email ++ " banned"),
              .notify ("admin " ++ executor.Email ++ " banned user " ++ user.Email)],
             { us with repository := repo })

/-- Go `unbanHandler`. -/
def unbanHandler (env : Env) (r : Request) (executor : User) (us : UserService) :
    List Effect × UserService :=
  match env.decodeEmail r.body with
  | none => ([.unprocError "could not read params"], us)
  | some params =>
    match env.validateEmail params.Email with
    | some err => ([.unprocError err], us)
    | none =>
      match us.repository.Get params.Email with
      | .error getErr => ([.repoGet params.Email, .unprocError getErr], us)
      | .ok user =>
        if executor.Role ≤ user.Role then
          ([.repoGet params.Email, .unauthError "permission denied"], us)
        else
          let banHistoryQuery : BanHistoryQuery :=
            { Executor := executor.Email, IsBan := false, Time := env.now, Reason := "" }
          let user : User :=
            { user with Banned := false, BanHistory := user.BanHistory ++ [banHistoryQuery] }
          match us.repository.Update user.Email user with
          | (some err, repo) =>
            ([.repoGet params.Email, .repoUpdate user.Email user (some err), .unprocError err],
             { us with repository := repo })
          | (none, repo) =>
            ([.repoGet params.Email, .repoUpdate user.Email user none,
              .writeHeader StatusOK,
              .write ("user " ++ user.Email ++ " unbanned"),
              .notify ("admin " ++ executor.Email ++ " unbanned user " ++ user.Email)],
             { us with repository := repo })

/-- The loop of Go `inspectHandler` that builds `banHistoryStr`. -/
def inspectHistoryStr (history : BanHistory) : String :=
  history.foldl
    (fun banHistoryStr query =>
      let banStr := if query.IsBan then "banned (reason: " ++ query.Reason ++ ")" else "unbanned"
      banHistoryStr ++ ("-- was " ++ banStr ++ " at " ++
        query.Time.Format banTimeFormat ++
        " by " ++ query.Executor ++ "\n"))
    ""

/-- Go `inspectHandler`. -/
def inspectHandler (_env : Env) (r : Request) (executor : User) (us : UserService) :
    List Effect × UserService :=
  let email := r.query "email"
  match us.repository.Get email with
  | .error getErr => ([.repoGet email, .unprocError getErr], us)
  | .ok user =>
    let banHistoryStr := inspectHistoryStr user.BanHistory
    ([.repoGet email,
      .writeHeader StatusOK,
      .write ("user " ++ user.Email ++ ":\n" ++ banHistoryStr),
      .notify ("admin " ++ executor.Email ++ " requested for ban history of user " ++
        user.Email)],
     us)

/-- Go `promoteHandler`. -/
def promoteHandler (env : Env) (r : Request) (executor : User) (us : UserService) :
    List Effect × UserService :=
  match env.decodeEmail r.body with
  | none => ([.unprocError "could not read params"], us)
  | some params =>
    match us.repository.Get params.Email with
    | .error getErr => ([.repoGet params.Email, .unprocError getErr], us)
    | .ok user =>
      let user : User := { user with Role := AdminRole }
      match us.repository.Update user.Email user with
      | (some err, repo) =>
        ([.repoGet params.Email, .repoUpdate user.Email user (some err), .unprocError err],
         { us with repository := repo })
      | (none, repo) =>
        ([.repoGet params.Email, .repoUpdate user.Email user none,
          .writeHeader StatusOK,
          .write ("user " ++ user.Email ++ " promoted to admin"),
          .notify ("admin " ++ executor.Email ++ " promoted user " ++ user.Email)],
         { us with repository := repo })

/-- Go `fireHandler`. -/
def fireHandler (env : Env) (r : Request) (executor : User) (us : UserService) :
    List Effect × UserService :=
  match env.decodeEmail r.body with
  | none => ([.unprocError "could not read params"], us)
  | some params =>
    match us.repository.Get params.Email with
    | .error getErr => ([.repoGet params.Email, .unprocError getErr], us)
    | .ok user =>
      let user : User := { user with Role := UserRole }
      match us.repository.Update user.Email user with
      | (some err, repo) =>
        ([.repoGet params.Email, .repoUpdate user.Email user (some err), .unprocError err],
         { us with repository := repo })
      | (none, repo) =>
        ([.repoGet params.Email, .repoUpdate user.Email user none,
          .writeHeader StatusOK,
          .write ("admin " ++ user.Email ++ " downgraded to user"),
          .notify ("admin " ++ executor.Email ++ " fired admin " ++ user.Email)],
         { us with repository := repo })

/-! ## Reading a trace -/

/-- The effect is a call of `repository.Update`. -/
def Effect.isUpdate : Effect → Bool
  | .repoUpdate _ _ _ => true
  | _ => false

/-- The effect writes a success response (`WriteHeader` or `Write`). -/
def Effect.isResponse : Effect → Bool
  | .writeHeader _ => true
  | .write _ => true
  | _ => false

/-- The run called `repository.Update`. -/
def callsUpdate (tr : List Effect) : Bool := tr.any Effect.isUpdate

/-- The messages sent on the notifier, in order. -/
def notifications (tr : List Effect) : List String :=
  tr.filterMap fun e => match e with
    | .notify msg => some msg
    | _ => none

/-- The run answered with status 200. -/
def succeeded (tr : List Effect) : Bool := tr.contains (Effect.writeHeader StatusOK)

/-- Every record the repository returns is stored under its own email: the repository is
keyed by the email of the user. -/
def Repository.Keyed (repo : Repository) : Prop :=
  ∀ key user, repo.Get key = Except.ok user → user.Email = key

/-! ## Sample data -/

/-- A decoder for the sample requests: the body `ban-a-spam` carries the email `a@x.com`
and the reason `spam`, `ban-admin` and `ban-boss` carry the emails of the administrator and
of the super administrator. -/
def sampleEnv : Env where
  decodeBan := fun body =>
    if body = "ban-a-spam" then some { Email := "a@x.com", Reason := "spam" }
    else if body = "ban-admin" then some { Email := "admin@x.com", Reason := "revenge" }
    else if body = "ban-boss" then some { Email := "boss@x.com", Reason := "rude" }
    else none
  decodeEmail := fun body =>
    if body = "ban-a-spam" then some { Email := "a@x.com" }
    else if body = "ban-admin" then some { Email := "admin@x.com" }
    else if body = "ban-boss" then some { Email := "boss@x.com" }
    else none
  validateEmail := fun email => if '@' ∈ email.toList then none else some "invalid email"
  now := { Unix := 1709994605, Nanosecond := 0, ZoneOffset := 0 }

/-- An earlier ledger entry of the sample user, made on 31 December 2023 at 00:01:02 UTC. -/
def sampleEntry : BanHistoryQuery :=
  { Executor := "root@x.com", IsBan := true,
    Time := { Unix := 1703980862, Nanosecond := 0, ZoneOffset := 0 },
    Reason := "flood" }

/-- The sample target, a plain user. -/
def sampleTarget : User :=
  { Email := "a@x.com", Role := UserRole, Banned := false, BanHistory := [] }

/-- A sample administrator. -/
def sampleAdmin : User :=
  { Email := "admin@x.com", Role := AdminRole, Banned := false, BanHistory := [] }

/-- A sample super administrator with one ledger entry. -/
def sampleBoss : User :=
  { Email := "boss@x.com", Role := SuperAdminRole, Banned := false,
    BanHistory := [sampleEntry] }

/-- A repository holding the sample target, the sample administrator and the sample super
administrator, whose updates always succeed. -/
def sampleRepo : Repository where
  Get := fun key =>
    if key = "a@x.com" then Except.ok sampleTarget
    else if key = "admin@x.com" then Except.ok sampleAdmin
    else if key = "boss@x.com" then Except.ok sampleBoss
    else Except.error "user not found"
  updateErr := fun _ _ => none

/-- A repository with the same records whose updates always fail. -/
def brokenRepo : Repository where
  Get := sampleRepo.Get
  updateErr := fun _ _ => some "storage is down"

/-- The sample request. -/
def sampleRequest : Request where
  body := "ban-a-spam"
  query := fun key => if key = "email" then "a@x.com" else ""

/-- A request aimed at the sample administrator. -/
def adminRequest : Request where
  body := "ban-admin"
  query := fun key => if key = "email" then "admin@x.com" else ""

/-- A request aimed at the sample super administrator. -/
def bossRequest : Request where
  body := "ban-boss"
  query := fun key => if key = "email" then "boss@x.com" else ""

/-- A request aimed at an email the sample repository does not hold. -/
def ghostRequest : Request where
  body := "ban-ghost"
  query := fun key => if key = "email" then "ghost@x.com" else ""

/-- A sample time: 2 January 2020, 00:00:00 UTC. -/
def secondOfJanuary : Time := { Unix := 1577923200, Nanosecond := 0, ZoneOffset := 0 }

/-- A later sample time: 1 February 2020, 00:00:00 UTC. -/
def firstOfFebruary : Time := { Unix := 1580515200, Nanosecond := 0, ZoneOffset := 0 }

/-- A sample time in the same month as `secondOfJanuary`: 15 January 2020, 13:45:10 UTC. -/
def midJanuary : Time := { Unix := 1579095910, Nanosecond := 0, ZoneOffset := 0 }

/-- A sample time read fourteen hours east of UTC: 16 January 2020, 01:00:00 there, which
is 15 January 2020, 11:00:00 UTC. -/
def eastOfUtc : Time := { Unix := 1579086000, Nanosecond := 0, ZoneOffset := 50400 }

/-- A sample time read at UTC, one hour after `eastOfUtc`: 15 January 2020, 12:00:00 UTC. -/
def noonUtc : Time := { Unix := 1579089600, Nanosecond := 0, ZoneOffset := 0 }

/-! ## Operations -/

/-- The five administrative operations, one per endpoint. -/
inductive Operation where
  | ban
  | unban
  | inspect
  | promote
  | fire
deriving DecidableEq

/-- The handler serving an operation. -/
def Operation.handler : Operation → Env → Request → User → UserService →
    List Effect × UserService
  | .ban => banHandler
  | .unban => unbanHandler
  | .inspect => inspectHandler
  | .promote => promoteHandler
  | .fire => fireHandler

/-! ## The rendering contract -/

/-- Concatenation of lines in list order. -/
def concatLines : List String → String
  | [] => ""
  | line :: rest => line ++ concatLines rest

/-- The line of one ledger entry as the rendering contract words it:
`-- was banned (reason: R) at T by X` for a ban, `-- was unbanned at T by X` for an unban,
newline-terminated. -/
def renderLine (entry : BanHistoryQuery) : String :=
  if entry.IsBan then
    "-- was banned (reason: " ++ entry.Reason ++ ") at " ++ entry.Time.Format banTimeFormat ++
      " by " ++ entry.Executor ++ "\n"
  else
    "-- was unbanned at " ++ entry.Time.Format banTimeFormat ++ " by " ++ entry.Executor ++ "\n"

/-- The rendering contract `renderHistory(entries)`: one line per entry, in ledger order. -/
def renderHistory (entries : BanHistory) : String := concatLines (entries.map renderLine)

/-! ## The role check -/

/-- Claim C1. In `banHandler` and `unbanHandler`, once the body decodes, the email validates
and the repository returns the target, the handler reaches `repository.Update` if and only if
the executor's role is strictly greater than the target's; otherwise its only effects are the
lookup and `handleUnauthError` with the message "permission denied". -/
theorem permission_check_iff (env : Env) (r : Request) (executor : User) (us : UserService) :
    (∀ (params : UserBanParams) (target : User),
      env.decodeBan r.body = some params → env.validateEmail params.Email = none →
      us.repository.Get params.Email = Except.ok target →
      (callsUpdate (banHandler env r executor us).1 = true ↔ target.Role < executor.Role) ∧
      (executor.Role ≤ target.Role →
        (banHandler env r executor us).1 =
          [.repoGet params.Email, .unauthError "permission denied"])) ∧
    (∀ (params : UserUnbanParams) (target : User),
      env.decodeEmail r.body = some params → env.validateEmail params.Email = none →
      us.repository.Get params.Email = Except.ok target →
      (callsUpdate (unbanHandler env r executor us).1 = true ↔ target.Role < executor.Role) ∧
      (executor.Role ≤ target.Role →
        (unbanHandler env r executor us).1 =
          [.repoGet params.Email, .unauthError "permission denied"])) := by
  refine ⟨?_, ?_⟩
  · intro params target hdec hval hget
    by_cases hrole : executor.Role ≤ target.Role
    · simp [banHandler, hdec, hval, hget, hrole, callsUpdate, Effect.isUpdate, not_lt.mpr hrole]
    · have hlt : target.Role < executor.Role := not_le.mp hrole
      refine ⟨?_, fun h => absurd h hrole⟩
      simp only [banHandler, hdec, hval, hget, hrole, if_false, hlt, iff_true]
      simp only [Repository.Update]
      split <;> rename_i heq <;> split at heq <;> cases heq <;>
        simp [callsUpdate, Effect.isUpdate]
  · intro params target hdec hval hget
    by_cases hrole : executor.Role ≤ target.Role
    · simp [unbanHandler, hdec, hval, hget, hrole, callsUpdate, Effect.isUpdate,
        not_lt.mpr hrole]
    · have hlt : target.Role < executor.Role := not_le.mp hrole
      refine ⟨?_, fun h => absurd h hrole⟩
      simp only [unbanHandler, hdec, hval, hget, hrole, if_false, hlt, iff_true]
      simp only [Repository.Update]
      split <;> rename_i heq <;> split at heq <;> cases heq <;>
        simp [callsUpdate, Effect.isUpdate]

/-- Claim C1 at the sample data: an administrator acting on a plain user passes the check,
and the same administrator acting on a super administrator is refused. -/
theorem permission_check_iff_witness :
    (callsUpdate (banHandler sampleEnv sampleRequest sampleAdmin ⟨sampleRepo⟩).1 = true ↔
        sampleTarget.Role < sampleAdmin.Role) ∧
    (unbanHandler sampleEnv bossRequest sampleAdmin ⟨sampleRepo⟩).1 =
        [.repoGet "boss@x.com", .unauthError "permission denied"] :=
  ⟨((permission_check_iff sampleEnv sampleRequest sampleAdmin ⟨sampleRepo⟩).1
      { Email := "a@x.com", Reason := "spam" } sampleTarget rfl rfl rfl).1,
   ((permission_check_iff sampleEnv bossRequest sampleAdmin ⟨sampleRepo⟩).2
      { Email := "boss@x.com" } sampleBoss rfl rfl rfl).2 (by decide)⟩

/-! ## Ban and unban -/

/-- Claim C2. When the body decodes, the email validates, the target exists, the executor's
role is strictly greater and `Update` succeeds, `banHandler` calls `Update` under the
target's email with the target's record changed only in `Banned := true` and in the history,
which is the previous history followed by the one entry
`{executor.Email, true, now, params.Reason}`; the repository then holds that record, and the
response is 200 with body "user {target.Email} banned". -/
theorem ban_success (env : Env) (r : Request) (executor : User) (us : UserService)
    (params : UserBanParams) (target : User)
    (hdec : env.decodeBan r.body = some params)
    (hval : env.validateEmail params.Email = none)
    (hget : us.repository.Get params.Email = Except.ok target)
    (hrole : target.Role < executor.Role)
    (hupd : (us.repository.Update target.Email
      { Email := target.Email, Role := target.Role, Banned := true,
        BanHistory := target.BanHistory ++
          [{ Executor := executor.Email, IsBan := true, Time := env.now,
             Reason := params.Reason }] }).1 = none) :
    (banHandler env r executor us).1 =
      [.repoGet params.Email,
       .repoUpdate target.Email
          { Email := target.Email, Role := target.Role, Banned := true,
            BanHistory := target.BanHistory ++
              [{ Executor := executor.Email, IsBan := true, Time := env.now,
                 Reason := params.Reason }] } none,
       .writeHeader 200,
       .write ("user " ++ target.Email ++ " banned"),
       .notify ("admin " ++ executor.Email ++ " banned user " ++ target.Email)] ∧
    (banHandler env r executor us).2.repository.Get target.Email =
      Except.ok
        { Email := target.Email, Role := target.Role, Banned := true,
          BanHistory := target.BanHistory ++
            [{ Executor := executor.Email, IsBan := true, Time := env.now,
               Reason := params.Reason }] } := by
  have hnot : ¬ executor.Role ≤ target.Role := not_le.mpr hrole
  simp only [Repository.Update] at hupd
  split at hupd
  · simp at hupd
  · rename_i hnone
    simp [banHandler, hdec, hval, hget, hnot, Repository.Update, hnone, StatusOK]

/-- Claim C2 at the sample data: the administrator bans the plain user `a@x.com` with the
reason "spam". -/
theorem ban_success_witness :
    (banHandler sampleEnv sampleRequest sampleAdmin ⟨sampleRepo⟩).1 =
      [.repoGet "a@x.com",
       .repoUpdate "a@x.com"
          { Email := "a@x.com", Role := UserRole, Banned := true,
            BanHistory := [{ Executor := "admin@x.com", IsBan := true, Time := sampleEnv.now,
                             Reason := "spam" }] } none,
       .writeHeader 200,
       .write "user a@x.com banned",
       .notify "admin admin@x.com banned user a@x.com"] ∧
    (banHandler sampleEnv sampleRequest sampleAdmin ⟨sampleRepo⟩).2.repository.Get "a@x.com" =
      Except.ok
        { Email := "a@x.com", Role := UserRole, Banned := true,
          BanHistory := [{ Executor := "admin@x.com", IsBan := true, Time := sampleEnv.now,
                           Reason := "spam" }] } :=
  ban_success sampleEnv sampleRequest sampleAdmin ⟨sampleRepo⟩
    { Email := "a@x.com", Reason := "spam" } sampleTarget rfl rfl rfl (by decide) rfl

/-- Claim C3. When the body decodes, the email validates, the target exists, the executor's
role is strictly greater and `Update` succeeds, `unbanHandler` persists the target's record
with `Banned := false` and the previous history followed by the one entry
`{executor.Email, false, now, ""}`: the reason is the empty string for every request body
and every decoder. -/
theorem unban_success (env : Env) (r : Request) (executor : User) (us : UserService)
    (params : UserUnbanParams) (target : User)
    (hdec : env.decodeEmail r.body = some params)
    (hval : env.validateEmail params.Email = none)
    (hget : us.repository.Get params.Email = Except.ok target)
    (hrole : target.Role < executor.Role)
    (hupd : (us.repository.Update target.Email
      { Email := target.Email, Role := target.Role, Banned := false,
        BanHistory := target.BanHistory ++
          [{ Executor := executor.Email, IsBan := false, Time := env.now,
             Reason := "" }] }).1 = none) :
    (unbanHandler env r executor us).1 =
      [.repoGet params.Email,
       .repoUpdate target.Email
          { Email := target.Email, Role := target.Role, Banned := false,
            BanHistory := target.BanHistory ++
              [{ Executor := executor.Email, IsBan := false, Time := env.now,
                 Reason := "" }] } none,
       .writeHeader 200,
       .write ("user " ++ target.Email ++ " unbanned"),
       .notify ("admin " ++ executor.Email ++ " unbanned user " ++ target.Email)] ∧
    (unbanHandler env r executor us).2.repository.Get target.Email =
      Except.ok
        { Email := target.Email, Role := target.Role, Banned := false,
          BanHistory := target.BanHistory ++
            [{ Executor := executor.Email, IsBan := false, Time := env.now,
               Reason := "" }] } := by
  have hnot : ¬ executor.Role ≤ target.Role := not_le.mpr hrole
  simp only [Repository.Update] at hupd
  split at hupd
  · simp at hupd
  · rename_i hnone
    simp [unbanHandler, hdec, hval, hget, hnot, Repository.Update, hnone, StatusOK]

/-- Claim C3 at the sample data: the request body `ban-a-spam` carries the reason "spam",
and the entry appended by the unban still has the empty reason. -/
theorem unban_success_witness :
    sampleEnv.decodeBan sampleRequest.body = some { Email := "a@x.com", Reason := "spam" } ∧
    (unbanHandler sampleEnv sampleRequest sampleAdmin ⟨sampleRepo⟩).2.repository.Get "a@x.com" =
      Except.ok
        { Email := "a@x.com", Role := UserRole, Banned := false,
          BanHistory := [{ Executor := "admin@x.com", IsBan := false, Time := sampleEnv.now,
                           Reason := "" }] } :=
  ⟨rfl, (unban_success sampleEnv sampleRequest sampleAdmin ⟨sampleRepo⟩
    { Email := "a@x.com" } sampleTarget rfl rfl rfl (by decide) rfl).2⟩

/-- Claim C4. When the target exists and the executor's role is not greater than the
target's, `banHandler` and `unbanHandler` do not call `repository.Update`, return the user
service (hence every stored record, its `Banned` flag and `BanHistory` included) as it was,
and send nothing to the notifier; the request having passed the email validation, their only
effects are the lookup and `handleUnauthError` with the message "permission denied". -/
theorem denied_is_atomic (env : Env) (r : Request) (executor : User) (us : UserService) :
    (∀ (params : UserBanParams) (target : User),
      env.decodeBan r.body = some params →
      us.repository.Get params.Email = Except.ok target → executor.Role ≤ target.Role →
      callsUpdate (banHandler env r executor us).1 = false ∧
      (banHandler env r executor us).2 = us ∧
      notifications (banHandler env r executor us).1 = [] ∧
      (env.validateEmail params.Email = none →
        (banHandler env r executor us).1 =
          [.repoGet params.Email, .unauthError "permission denied"])) ∧
    (∀ (params : UserUnbanParams) (target : User),
      env.decodeEmail r.body = some params →
      us.repository.Get params.Email = Except.ok target → executor.Role ≤ target.Role →
      callsUpdate (unbanHandler env r executor us).1 = false ∧
      (unbanHandler env r executor us).2 = us ∧
      notifications (unbanHandler env r executor us).1 = [] ∧
      (env.validateEmail params.Email = none →
        (unbanHandler env r executor us).1 =
          [.repoGet params.Email, .unauthError "permission denied"])) := by
  refine ⟨?_, ?_⟩
  · intro params target hdec hget hrole
    rcases hval : env.validateEmail params.Email with _ | verr <;>
      simp [banHandler, hdec, hval, hget, hrole, callsUpdate, Effect.isUpdate, notifications]
  · intro params target hdec hget hrole
    rcases hval : env.validateEmail params.Email with _ | verr <;>
      simp [unbanHandler, hdec, hval, hget, hrole, callsUpdate, Effect.isUpdate,
        notifications]

/-- Claim C4 at the sample data: a plain user tries to ban the administrator. -/
theorem denied_is_atomic_witness :
    callsUpdate (banHandler sampleEnv adminRequest sampleTarget ⟨sampleRepo⟩).1 = false ∧
    (banHandler sampleEnv adminRequest sampleTarget ⟨sampleRepo⟩).2 = ⟨sampleRepo⟩ ∧
    notifications (banHandler sampleEnv adminRequest sampleTarget ⟨sampleRepo⟩).1 = [] ∧
    (banHandler sampleEnv adminRequest sampleTarget ⟨sampleRepo⟩).1 =
        [.repoGet "admin@x.com", .unauthError "permission denied"] :=
  have h := (denied_is_atomic sampleEnv adminRequest sampleTarget ⟨sampleRepo⟩).1
    { Email := "admin@x.com", Reason := "revenge" } sampleAdmin rfl rfl (by decide)
  ⟨h.1, h.2.1, h.2.2.1, h.2.2.2 rfl⟩

/-! ## Rendering of the history -/

/-- The line the loop of `inspectHandler` adds for one entry is the line of the contract. -/
theorem loop_line_eq (query : BanHistoryQuery) :
    "-- was " ++ (if query.IsBan then "banned (reason: " ++ query.Reason ++ ")" else "unbanned")
      ++ " at " ++ query.Time.Format banTimeFormat ++ " by " ++ query.Executor ++ "\n" =
    renderLine query := by
  cases hb : query.IsBan
  · simp [renderLine, hb, String.append_assoc]
  · simp only [renderLine, hb, if_true, String.append_assoc]
    rfl

/-- The loop started from any accumulator appends the rendered lines to it. -/
theorem loop_eq_append (history : BanHistory) (acc : String) :
    history.foldl
      (fun banHistoryStr query =>
        banHistoryStr ++ ("-- was " ++
          (if query.IsBan then "banned (reason: " ++ query.Reason ++ ")" else "unbanned") ++
          " at " ++ query.Time.Format banTimeFormat ++ " by " ++ query.Executor ++ "\n"))
      acc = acc ++ renderHistory history := by
  induction history generalizing acc with
  | nil => simp [renderHistory, concatLines]
  | cons q rest ih =>
    rw [List.foldl_cons, ih, loop_line_eq, String.append_assoc]
    rfl

/-- The string built by the loop is the rendering of the contract. -/
theorem inspectHistoryStr_eq (history : BanHistory) :
    inspectHistoryStr history = renderHistory history := by
  unfold inspectHistoryStr
  rw [loop_eq_append]
  simp

/-- A rendered line starts with the ban wording exactly when the entry is a ban. -/
theorem renderLine_banned_iff (entry : BanHistoryQuery) :
    "-- was banned".toList <+: (renderLine entry).toList ↔ entry.IsBan = true := by
  cases hb : entry.IsBan
  · simp only [renderLine, hb, Bool.false_eq_true, if_false, iff_false]
    intro hp
    have := List.IsPrefix.take hp 8
    simp [String.toList] at this
  · simp only [renderLine, hb, if_true, iff_true]
    exact ⟨_, rfl⟩

/-- A rendered line starts with the unban wording exactly when the entry is an unban. -/
theorem renderLine_unbanned_iff (entry : BanHistoryQuery) :
    "-- was unbanned".toList <+: (renderLine entry).toList ↔ entry.IsBan = false := by
  cases hb : entry.IsBan
  · simp only [renderLine, hb, Bool.false_eq_true, if_false, iff_true]
    exact ⟨_, rfl⟩
  · simp only [renderLine, hb, if_true, Bool.true_eq_false, iff_false]
    intro hp
    have := List.IsPrefix.take hp 8
    simp [String.toList] at this

/-- Claim C5. For an existing user `inspectHandler` answers 200 with the body
"user {email}:\n" followed by the rendered history: the concatenation, in ledger order, of
one newline-terminated line per entry, "-- was banned (reason: R) at T by X" for a ban and
"-- was unbanned at T by X" for an unban; there are as many lines as entries and the i-th
line carries the ban or unban wording according to the flag of the i-th entry. -/
theorem inspect_renders_history (env : Env) (r : Request) (executor : User) (us : UserService)
    (user : User) (hget : us.repository.Get (r.query "email") = Except.ok user) :
    (inspectHandler env r executor us).1 =
      [.repoGet (r.query "email"),
       .writeHeader 200,
       .write ("user " ++ user.Email ++ ":\n" ++ concatLines (user.BanHistory.map renderLine)),
       .notify ("admin " ++ executor.Email ++ " requested for ban history of user " ++
         user.Email)] ∧
    (user.BanHistory.map renderLine).length = user.BanHistory.length ∧
    ∀ (i : Nat) (entry : BanHistoryQuery), user.BanHistory[i]? = some entry →
      (user.BanHistory.map renderLine)[i]? = some (renderLine entry) ∧
      ("-- was banned".toList <+: (renderLine entry).toList ↔ entry.IsBan = true) ∧
      ("-- was unbanned".toList <+: (renderLine entry).toList ↔ entry.IsBan = false) := by
  refine ⟨?_, by simp, ?_⟩
  · simp [inspectHandler, hget, inspectHistoryStr_eq, renderHistory, StatusOK]
  · intro i entry hi
    exact ⟨by simp [hi], renderLine_banned_iff entry, renderLine_unbanned_iff entry⟩

/-- Claim C5 at the sample data: the history of the super administrator has one ban entry. -/
theorem inspect_renders_history_witness :
    (inspectHandler sampleEnv bossRequest sampleTarget ⟨sampleRepo⟩).1 =
      [.repoGet "boss@x.com",
       .writeHeader 200,
       .write ("user boss@x.com:\n" ++ concatLines (sampleBoss.BanHistory.map renderLine)),
       .notify "admin a@x.com requested for ban history of user boss@x.com"] ∧
    concatLines (sampleBoss.BanHistory.map renderLine) =
      "-- was banned (reason: flood) at 31 December 2023 12:31:12 by root@x.com\n" :=
  ⟨(inspect_renders_history sampleEnv bossRequest sampleTarget ⟨sampleRepo⟩ sampleBoss rfl).1,
   by decide⟩

/-! ## The timestamp layout -/

/-- The layout `banTimeFormat` prints the day, the month name, the year, then the month,
the day and the hour on the 12-hour clock. -/
theorem format_banTimeFormat (t : Time) :
    (t.Format banTimeFormat).toList =
      appendInt t.Day 2 ++ (' ' :: ((monthString t.Month).toList ++ (' ' ::
        (appendInt t.Year 4 ++ (' ' :: (appendInt t.Month 2 ++ (':' ::
          (appendInt t.Day 2 ++ (':' :: appendInt (hour12 t.Hour) 2))))))))) := by
  have h : (t.Format banTimeFormat).toList =
      appendInt t.Day 2 ++ (' ' :: ((monthString t.Month).toList ++ (' ' ::
        (appendInt t.Year 4 ++ (' ' :: (appendInt t.Month 2 ++ (':' ::
          (appendInt t.Day 2 ++ (':' :: (appendInt (hour12 t.Hour) 2 ++ [])))))))))) := rfl
  rw [h, List.append_nil]

/-- A day of the month is printed as its two decimal digits. -/
theorem appendInt_day (d : Nat) (hd : d ≤ 31) :
    appendInt d 2 = [Nat.digitChar (d / 10), Nat.digitChar (d % 10)] := by
  interval_cases d <;> rfl

/-- Decimal digits are printed as characters in increasing order. -/
theorem digitChar_lt (a b : Nat) (hb : b < 10) (hab : a < b) :
    Nat.digitChar a < Nat.digitChar b := by
  interval_cases b <;> interval_cases a <;> decide

/-- Two strings that start with two characters in strict order are in that order. -/
theorem two_chars_lt_append (a b c d : Char) (h : [a, b] < [c, d]) (xs ys : List Char) :
    [a, b] ++ xs < [c, d] ++ ys := by
  cases h with
  | rel hac => exact List.Lex.rel hac
  | cons hrest =>
    cases hrest with
    | rel hbd => exact List.Lex.cons (List.Lex.rel hbd)
    | cons hnil => cases hnil

/-- Of two days of the month the smaller one is printed as the smaller two characters. -/
theorem day_digits_lt (d e : Nat) (he : e ≤ 31) (hde : d < e) :
    [Nat.digitChar (d / 10), Nat.digitChar (d % 10)] <
      [Nat.digitChar (e / 10), Nat.digitChar (e % 10)] := by
  rcases Nat.lt_or_ge (d / 10) (e / 10) with h | h
  · exact List.Lex.rel (digitChar_lt _ _ (by omega) h)
  · have heq : d / 10 = e / 10 := by omega
    rw [heq]
    exact List.Lex.cons (List.Lex.rel (digitChar_lt _ _ (by omega) (by omega)))

/-- Of two days of the month the smaller one is printed as the smaller string, whatever
follows. -/
theorem day_lt_append (d e : Nat) (he : e ≤ 31) (hde : d < e) (xs ys : List Char) :
    appendInt d 2 ++ xs < appendInt e 2 ++ ys := by
  rw [appendInt_day d (by omega), appendInt_day e he]
  exact two_chars_lt_append _ _ _ _ (day_digits_lt d e he hde) xs ys

/-! ## The calendar -/

/-- The day within the 400-year cycle is between 0 and 146096. -/
theorem dayOfEra_range (d : Int) : 0 ≤ dayOfEra d ∧ dayOfEra d ≤ 146096 := by
  unfold dayOfEra; omega

/-- The year within the 400-year cycle is between 0 and 399. -/
theorem yearOfEra_range (d : Int) : 0 ≤ yearOfEra d ∧ yearOfEra d ≤ 399 := by
  have := dayOfEra_range d
  unfold yearOfEra; omega

/-- The day within the March-based year is between 0 and 365. -/
theorem dayOfYear_range (d : Int) : 0 ≤ dayOfYear d ∧ dayOfYear d ≤ 365 := by
  have h := dayOfEra_range d
  have hy := yearOfEra_range d
  unfold dayOfYear
  unfold yearOfEra at hy ⊢
  generalize dayOfEra d = doe at h hy ⊢
  have hg : doe / 36524 = 0 ∨ doe / 36524 = 1 ∨ doe / 36524 = 2 ∨ doe / 36524 = 3 ∨
      doe / 36524 = 4 := by omega
  have hi : doe / 146096 = 0 ∨ doe / 146096 = 1 := by omega
  generalize hN : (doe - doe / 1460 + doe / 36524 - doe / 146096) / 365 = yoe at hy ⊢
  have he : yoe / 100 = 0 ∨ yoe / 100 = 1 ∨ yoe / 100 = 2 ∨ yoe / 100 = 3 := by omega
  rcases hg with hg | hg | hg | hg | hg <;> rcases hi with hi | hi <;>
    rcases he with he | he | he | he <;> rw [hg, hi] at hN <;> rw [he] <;> omega

/-- The March-based month is between 0 and 11. -/
theorem monthIndex_range (d : Int) : 0 ≤ monthIndex d ∧ monthIndex d ≤ 11 := by
  have := dayOfYear_range d
  unfold monthIndex; omega

/-- The day of the month is between 1 and 31. -/
theorem civilDay_range (d : Int) : 1 ≤ civilDay d ∧ civilDay d ≤ 31 := by
  have := dayOfYear_range d
  unfold civilDay monthIndex; omega

/-- Within one month of one year the day of the month grows with the day number. -/
theorem civilDay_mono (a b : Int) (hab : a ≤ b) (hy : civilYear a = civilYear b)
    (hm : civilMonth a = civilMonth b) : civilDay a ≤ civilDay b := by
  have hmp : monthIndex a = monthIndex b := by
    have := monthIndex_range a
    have := monthIndex_range b
    unfold civilMonth at hm
    split_ifs at hm <;> omega
  have hye : yearOfEra a + era a * 400 = yearOfEra b + era b * 400 := by
    unfold civilYear at hy
    rw [hm] at hy
    omega
  have ha := yearOfEra_range a
  have hb := yearOfEra_range b
  have hera : era a = era b := by omega
  have hyoe : yearOfEra a = yearOfEra b := by omega
  have hdoe : dayOfEra a ≤ dayOfEra b := by
    unfold era at hera
    unfold dayOfEra
    omega
  unfold civilDay dayOfYear
  rw [hmp, hyoe]
  omega

/-- Go `t.Day()` is at most 31. -/
theorem day_le (t : Time) : t.Day ≤ 31 := by
  have := civilDay_range t.dayNumber
  unfold Time.Day
  omega

/-- Of two times read at the same offset, the one that is not later falls on a day that is
not later. -/
theorem dayNumber_mono (t1 t2 : Time) (hoff : t1.ZoneOffset = t2.ZoneOffset)
    (hle : t1.notLaterThan t2) : t1.dayNumber ≤ t2.dayNumber := by
  have hu : t1.Unix ≤ t2.Unix := by
    rcases hle with h | ⟨h, _⟩ <;> omega
  unfold Time.dayNumber Time.localSec
  omega

/-! ## Sortability of the rendered timestamp -/

/-- Claim C10, as stated, fails: 2 January 2020, 00:00 UTC is earlier than 1 February 2020,
00:00 UTC, and is rendered "02 January 2020 01:02:12", which is lexicographically greater
than "01 February 2020 02:01:12", the rendering of the later time. -/
theorem format_not_sortable :
    secondOfJanuary.notLaterThan firstOfFebruary ∧
    secondOfJanuary.Format banTimeFormat = "02 January 2020 01:02:12" ∧
    firstOfFebruary.Format banTimeFormat = "01 February 2020 02:01:12" ∧
    ¬ (secondOfJanuary.Format banTimeFormat ≤ firstOfFebruary.Format banTimeFormat) := by
  refine ⟨by decide, by decide, by decide, ?_⟩
  rw [String.le_iff_toList_le, not_le]
  decide

/-- The order of the instants alone does not order the days read at different offsets:
15 January 2020, 11:00 UTC read fourteen hours east of UTC is 16 January there, and is
rendered greater than the later 15 January 2020, 12:00 UTC read at UTC. -/
theorem format_offsets_matter :
    eastOfUtc.notLaterThan noonUtc ∧
    eastOfUtc.Year = noonUtc.Year ∧ eastOfUtc.Month = noonUtc.Month ∧
    eastOfUtc.Day = 16 ∧ noonUtc.Day = 15 ∧
    noonUtc.Format banTimeFormat < eastOfUtc.Format banTimeFormat := by
  refine ⟨by decide, by decide, by decide, by decide, by decide, ?_⟩
  rw [String.lt_iff_toList_lt]
  decide

/-- Claim C10, amended. The layout starts with the day of the month, so it orders the times
of one calendar month by day: for `t1` not later than `t2`, both read at the same offset from
UTC and falling in the same year and month on different days of the month, the rendering of
`t1` is lexicographically smaller than the rendering of `t2`. -/
theorem format_sorts_days_of_month (t1 t2 : Time)
    (hoff : t1.ZoneOffset = t2.ZoneOffset) (hle : t1.notLaterThan t2)
    (hy : t1.Year = t2.Year) (hm : t1.Month = t2.Month) (hd : t1.Day ≠ t2.Day) :
    t1.Format banTimeFormat < t2.Format banTimeFormat := by
  have hdays := dayNumber_mono t1 t2 hoff hle
  have hmonth : civilMonth t1.dayNumber = civilMonth t2.dayNumber := by
    have h1 := monthIndex_range t1.dayNumber
    have h2 := monthIndex_range t2.dayNumber
    have hm' : (civilMonth t1.dayNumber).toNat = (civilMonth t2.dayNumber).toNat := hm
    unfold civilMonth at hm' ⊢
    split_ifs at hm' ⊢ <;> omega
  have hmono := civilDay_mono _ _ hdays hy hmonth
  have hday : t1.Day < t2.Day := by
    have h1 := civilDay_range t1.dayNumber
    have h2 := civilDay_range t2.dayNumber
    unfold Time.Day at hd ⊢
    omega
  rw [String.lt_iff_toList_lt, format_banTimeFormat, format_banTimeFormat]
  exact day_lt_append _ _ (day_le t2) hday _ _

/-- Claim C10, amended, at sample times: 2 January 2020 and 15 January 2020, both read at
UTC. -/
theorem format_sorts_days_of_month_witness :
    secondOfJanuary.Format banTimeFormat < midJanuary.Format banTimeFormat :=
  format_sorts_days_of_month secondOfJanuary midJanuary rfl (by decide) (by decide)
    (by decide) (by decide)

/-! ## The shape of a run -/

/-- A failed `Update` returns the repository it was called on. -/
theorem update_failed (repo : Repository) (email : String) (user : User) (err : String)
    (h : repo.updateErr email user = some err) :
    repo.Update email user = (some err, repo) := by
  simp [Repository.Update, h]

/-- A successful `Update` stores the record under the given key and nothing else. -/
theorem update_ok (repo : Repository) (email : String) (user : User)
    (h : repo.updateErr email user = none) :
    repo.Update email user =
      (none, { repo with
        Get := fun key => if key = email then Except.ok user else repo.Get key }) := by
  simp [Repository.Update, h]

/-- Every run of a handler has one of three shapes: it does not call `Update` and leaves
the user service as it was; or it looks a target up, calls `Update`, is refused, and reports
that error as its last effect, leaving the user service as it was; or it looks a target up,
calls `Update` successfully, answers 200 and sends one notification, and the repository
then differs from the old one at the target's email only.  In the last two shapes the record
handed to `Update` keeps the target's email, and keeps its history and banned flag
(promote, fire) or extends the history by one entry matching the new flag (ban, unban). -/
theorem run_shape (op : Operation) (env : Env) (r : Request) (executor : User)
    (us : UserService) :
    ((op.handler env r executor us).2 = us ∧
      callsUpdate (op.handler env r executor us).1 = false ∧
      (op ≠ .inspect → succeeded (op.handler env r executor us).1 = false)) ∨
    (∃ email target user' err,
      us.repository.Get email = Except.ok target ∧
      (op.handler env r executor us).1 =
        [.repoGet email, .repoUpdate target.Email user' (some err), .unprocError err] ∧
      (op.handler env r executor us).2 = us ∧
      (us.repository.Update target.Email user').1 = some err) ∨
    (∃ email target user' body msg,
      us.repository.Get email = Except.ok target ∧
      (op.handler env r executor us).1 =
        [.repoGet email, .repoUpdate target.Email user' none, .writeHeader StatusOK,
         .write body, .notify msg] ∧
      (us.repository.Update target.Email user').1 = none ∧
      (op.handler env r executor us).2.repository.Get =
        (fun key => if key = target.Email then Except.ok user' else us.repository.Get key) ∧
      user'.Email = target.Email ∧
      ((op = .ban ∧ user'.Banned = true ∧
          ∃ entry, entry.IsBan = true ∧ user'.BanHistory = target.BanHistory ++ [entry]) ∨
       (op = .unban ∧ user'.Banned = false ∧
          ∃ entry, entry.IsBan = false ∧ user'.BanHistory = target.BanHistory ++ [entry]) ∨
       ((op = .promote ∨ op = .fire) ∧ user'.Banned = target.Banned ∧
          user'.BanHistory = target.BanHistory))) := by
  cases op
  case ban =>
    rcases hdec : env.decodeBan r.body with _ | params
    · left; simp [Operation.handler, banHandler, hdec, callsUpdate, Effect.isUpdate, succeeded]
    rcases hval : env.validateEmail params.Email with _ | verr
    swap
    · left; simp [Operation.handler, banHandler, hdec, hval, callsUpdate, Effect.isUpdate,
        succeeded]
    rcases hget : us.repository.Get params.Email with gerr | target
    · left; simp [Operation.handler, banHandler, hdec, hval, hget, callsUpdate, Effect.isUpdate,
        succeeded]
    by_cases hrole : executor.Role ≤ target.Role
    · left; simp [Operation.handler, banHandler, hdec, hval, hget, hrole, callsUpdate,
        Effect.isUpdate, succeeded]
    rcases hupd : us.repository.updateErr target.Email
        { target with Banned := true,
                      BanHistory := target.BanHistory ++
                        [{ Executor := executor.Email, IsBan := true, Time := env.now,
                           Reason := params.Reason }] } with _ | err
    · have hU := update_ok _ _ _ hupd
      right; right
      exact ⟨params.Email, target,
        { target with Banned := true,
                      BanHistory := target.BanHistory ++
                        [{ Executor := executor.Email, IsBan := true, Time := env.now,
                           Reason := params.Reason }] },
        "user " ++ target.Email ++ " banned",
        "admin " ++ executor.Email ++ " banned user " ++ target.Email,
        hget, by simp [Operation.handler, banHandler, hdec, hval, hget, hrole, hU], by rw [hU],
        by simp [Operation.handler, banHandler, hdec, hval, hget, hrole, hU], rfl, Or.inl ⟨rfl,
            rfl, _, rfl, rfl⟩⟩
    · have hU := update_failed _ _ _ _ hupd
      right; left
      exact ⟨params.Email, target,
        { target with Banned := true,
                      BanHistory := target.BanHistory ++
                        [{ Executor := executor.Email, IsBan := true, Time := env.now,
                           Reason := params.Reason }] }, err,
        hget, by simp [Operation.handler, banHandler, hdec, hval, hget, hrole, hU],
        by simp [Operation.handler, banHandler, hdec, hval, hget, hrole, hU], by rw [hU]⟩
  case unban =>
    rcases hdec : env.decodeEmail r.body with _ | params
    · left; simp [Operation.handler, unbanHandler, hdec, callsUpdate, Effect.isUpdate, succeeded]
    rcases hval : env.validateEmail params.Email with _ | verr
    swap
    · left; simp [Operation.handler, unbanHandler, hdec, hval, callsUpdate, Effect.isUpdate,
        succeeded]
    rcases hget : us.repository.Get params.Email with gerr | target
    · left; simp [Operation.handler, unbanHandler, hdec, hval, hget, callsUpdate,
        Effect.isUpdate, succeeded]
    by_cases hrole : executor.Role ≤ target.Role
    · left; simp [Operation.handler, unbanHandler, hdec, hval, hget, hrole, callsUpdate,
        Effect.isUpdate, succeeded]
    rcases hupd : us.repository.updateErr target.Email
        { target with Banned := false,
                      BanHistory := target.BanHistory ++
                        [{ Executor := executor.Email, IsBan := false, Time := env.now,
                           Reason := "" }] } with _ | err
    · have hU := update_ok _ _ _ hupd
      right; right
      exact ⟨params.Email, target,
        { target with Banned := false,
                      BanHistory := target.BanHistory ++
                        [{ Executor := executor.Email, IsBan := false, Time := env.now,
                           Reason := "" }] },
        "user " ++ target.Email ++ " unbanned",
        "admin " ++ executor.Email ++ " unbanned user " ++ target.Email,
        hget, by simp [Operation.handler, unbanHandler, hdec, hval, hget, hrole, hU], by rw [hU],
        by simp [Operation.handler, unbanHandler, hdec, hval, hget, hrole, hU], rfl,
            Or.inr (Or.inl ⟨rfl, rfl, _, rfl, rfl⟩)⟩
    · have hU := update_failed _ _ _ _ hupd
      right; left
      exact ⟨params.Email, target,
        { target with Banned := false,
                      BanHistory := target.BanHistory ++
                        [{ Executor := executor.Email, IsBan := false, Time := env.now,
                           Reason := "" }] }, err,
        hget, by simp [Operation.handler, unbanHandler, hdec, hval, hget, hrole, hU],
        by simp [Operation.handler, unbanHandler, hdec, hval, hget, hrole, hU], by rw [hU]⟩
  case inspect =>
    left
    rcases hget : us.repository.Get (r.query "email") with gerr | target <;>
      simp [Operation.handler, inspectHandler, hget, callsUpdate, Effect.isUpdate]
  case promote =>
    rcases hdec : env.decodeEmail r.body with _ | params
    · left; simp [Operation.handler, promoteHandler, hdec, callsUpdate, Effect.isUpdate, succeeded]
    rcases hget : us.repository.Get params.Email with gerr | target
    · left; simp [Operation.handler, promoteHandler, hdec, hget, callsUpdate, Effect.isUpdate,
        succeeded]
    rcases hupd : us.repository.updateErr target.Email
        { target with Role := AdminRole } with _ | err
    · have hU := update_ok _ _ _ hupd
      right; right
      exact ⟨params.Email, target,
        { target with Role := AdminRole },
        "user " ++ target.Email ++ " promoted to admin",
        "admin " ++ executor.Email ++ " promoted user " ++ target.Email,
        hget, by simp [Operation.handler, promoteHandler, hdec, hget, hU], by rw [hU],
        by simp [Operation.handler, promoteHandler, hdec, hget, hU], rfl,
            Or.inr (Or.inr ⟨Or.inl rfl, rfl, rfl⟩)⟩
    · have hU := update_failed _ _ _ _ hupd
      right; left
      exact ⟨params.Email, target,
        { target with Role := AdminRole }, err,
        hget, by simp [Operation.handler, promoteHandler, hdec, hget, hU],
        by simp [Operation.handler, promoteHandler, hdec, hget, hU], by rw [hU]⟩
  case fire =>
    rcases hdec : env.decodeEmail r.body with _ | params
    · left; simp [Operation.handler, fireHandler, hdec, callsUpdate, Effect.isUpdate, succeeded]
    rcases hget : us.repository.Get params.Email with gerr | target
    · left; simp [Operation.handler, fireHandler, hdec, hget, callsUpdate, Effect.isUpdate,
        succeeded]
    rcases hupd : us.repository.updateErr target.Email
        { target with Role := UserRole } with _ | err
    · have hU := update_ok _ _ _ hupd
      right; right
      exact ⟨params.Email, target,
        { target with Role := UserRole },
        "admin " ++ target.Email ++ " downgraded to user",
        "admin " ++ executor.Email ++ " fired admin " ++ target.Email,
        hget, by simp [Operation.handler, fireHandler, hdec, hget, hU], by rw [hU],
        by simp [Operation.handler, fireHandler, hdec, hget, hU], rfl,
            Or.inr (Or.inr ⟨Or.inr rfl, rfl, rfl⟩)⟩
    · have hU := update_failed _ _ _ _ hupd
      right; left
      exact ⟨params.Email, target,
        { target with Role := UserRole }, err,
        hget, by simp [Operation.handler, fireHandler, hdec, hget, hU],
        by simp [Operation.handler, fireHandler, hdec, hget, hU], by rw [hU]⟩
/-- A trace that contains a call of `Update` calls `Update`. -/
theorem callsUpdate_of_mem (tr : List Effect) (key : String) (user : User)
    (err : Option String) (h : Effect.repoUpdate key user err ∈ tr) : callsUpdate tr = true := by
  unfold callsUpdate
  rw [List.any_eq_true]
  exact ⟨_, h, rfl⟩

/-! ## Persistence before notification -/

/-- Claim C6. In every run of a handler (`banHandler`, `unbanHandler`, `promoteHandler`,
`fireHandler`; `inspectHandler` never calls `Update`), each call of `repository.Update` in
the trace carries the answer of the repository, and: if that answer is an error, the last
effect of the run reports this error, no response is written and nothing is sent to the
notifier; if it is a success, the trace splits around the call into a part before it,
without notification, and a part after it, with exactly one notification. -/
theorem notify_only_after_update (op : Operation) (env : Env) (r : Request) (executor : User)
    (us : UserService) :
    ∀ (key : String) (user : User) (err : Option String),
      Effect.repoUpdate key user err ∈ (op.handler env r executor us).1 →
      (us.repository.Update key user).1 = err ∧
      (∀ e, err = some e →
        (op.handler env r executor us).1.getLast? = some (.unprocError e) ∧
        (op.handler env r executor us).1.any Effect.isResponse = false ∧
        notifications (op.handler env r executor us).1 = [] ∧
        (op.handler env r executor us).2 = us) ∧
      (err = none →
        ∃ pre post msg,
          (op.handler env r executor us).1 = pre ++ Effect.repoUpdate key user none :: post ∧
          notifications pre = [] ∧ notifications post = [msg]) := by
  intro key user err hmem
  rcases run_shape op env r executor us with
    ⟨_, hno, _⟩ | ⟨email, target, user', err', _, htr, hus, hupd⟩ |
    ⟨email, target, user', body, msg, _, htr, hupd, _, _, _⟩
  · rw [callsUpdate_of_mem _ _ _ _ hmem] at hno
    cases hno
  · rw [htr] at hmem ⊢
    simp at hmem
    obtain ⟨rfl, rfl, rfl⟩ := hmem
    refine ⟨hupd, ?_, by simp⟩
    intro e he
    cases he
    simp [hus, Effect.isResponse, notifications]
  · rw [htr] at hmem ⊢
    simp at hmem
    obtain ⟨rfl, rfl, rfl⟩ := hmem
    refine ⟨hupd, by simp, ?_⟩
    intro _
    exact ⟨[.repoGet email], [.writeHeader StatusOK, .write body, .notify msg], msg, rfl,
      rfl, rfl⟩

/-- Claim C6 at the sample data: with a repository that refuses updates the promotion ends
with the storage error and no notification; with a repository that accepts them the ban
sends its one notification after the update. -/
theorem notify_only_after_update_witness :
    notifications (promoteHandler sampleEnv sampleRequest sampleAdmin ⟨brokenRepo⟩).1 = [] ∧
    (promoteHandler sampleEnv sampleRequest sampleAdmin ⟨brokenRepo⟩).1.getLast? =
      some (.unprocError "storage is down") ∧
    ∃ pre post msg,
      (banHandler sampleEnv sampleRequest sampleAdmin ⟨sampleRepo⟩).1 =
        pre ++ Effect.repoUpdate "a@x.com"
          { Email := "a@x.com", Role := UserRole, Banned := true,
            BanHistory := [{ Executor := "admin@x.com", IsBan := true, Time := sampleEnv.now,
                             Reason := "spam" }] } none :: post ∧
      notifications pre = [] ∧ notifications post = [msg] :=
  ⟨((notify_only_after_update .promote sampleEnv sampleRequest sampleAdmin ⟨brokenRepo⟩
      "a@x.com" { sampleTarget with Role := AdminRole } (some "storage is down")
      (by decide)).2.1 "storage is down" rfl).2.2.1,
   ((notify_only_after_update .promote sampleEnv sampleRequest sampleAdmin ⟨brokenRepo⟩
      "a@x.com" { sampleTarget with Role := AdminRole } (some "storage is down")
      (by decide)).2.1 "storage is down" rfl).1,
   (notify_only_after_update .ban sampleEnv sampleRequest sampleAdmin ⟨sampleRepo⟩
      "a@x.com"
      { Email := "a@x.com", Role := UserRole, Banned := true,
        BanHistory := [{ Executor := "admin@x.com", IsBan := true, Time := sampleEnv.now,
                         Reason := "spam" }] } none (by decide)).2.2 rfl⟩

/-! ## Inspect -/

/-- Claim C9. `inspectHandler` never calls `repository.Update` and returns the user service
as it was; when the repository has no user at the email it reports the error of the lookup
through `handleUnprocError` and sends no notification; when the user exists it answers 200,
whatever the roles of the executor and of the target. -/
theorem inspect_read_only (env : Env) (r : Request) (executor : User) (us : UserService) :
    callsUpdate (inspectHandler env r executor us).1 = false ∧
    (inspectHandler env r executor us).2 = us ∧
    (∀ err, us.repository.Get (r.query "email") = Except.error err →
      (inspectHandler env r executor us).1 =
        [.repoGet (r.query "email"), .unprocError err] ∧
      notifications (inspectHandler env r executor us).1 = []) ∧
    (∀ user, us.repository.Get (r.query "email") = Except.ok user →
      succeeded (inspectHandler env r executor us).1 = true ∧
      Effect.writeHeader 200 ∈ (inspectHandler env r executor us).1) := by
  refine ⟨?_, ?_, ?_, ?_⟩
  · rcases hget : us.repository.Get (r.query "email") with gerr | target <;>
      simp [inspectHandler, hget, callsUpdate, Effect.isUpdate]
  · rcases hget : us.repository.Get (r.query "email") with gerr | target <;>
      simp [inspectHandler, hget]
  · intro err hget
    simp [inspectHandler, hget, notifications]
  · intro user hget
    simp [inspectHandler, hget, succeeded, StatusOK]

/-- Claim C9 at the sample data: a plain user inspects the super administrator and gets 200;
an administrator inspecting an unknown email gets the error of the lookup. -/
theorem inspect_read_only_witness :
    Effect.writeHeader 200 ∈
      (inspectHandler sampleEnv bossRequest sampleTarget ⟨sampleRepo⟩).1 ∧
    (inspectHandler sampleEnv ghostRequest sampleAdmin ⟨sampleRepo⟩).1 =
      [.repoGet "ghost@x.com", .unprocError "user not found"] :=
  ⟨((inspect_read_only sampleEnv bossRequest sampleTarget ⟨sampleRepo⟩).2.2.2
      sampleBoss rfl).2,
   ((inspect_read_only sampleEnv ghostRequest sampleAdmin ⟨sampleRepo⟩).2.2.1
      "user not found" rfl).1⟩

/-! ## The ledger is append-only -/

/-- Claim C8. For each of the five handlers and any input, on a repository keyed by email:
every stored record is still stored afterwards and its old `BanHistory` is an initial
segment of the new one; a successful ban or unban extends the history of one record by
exactly one entry, whose flag is the new `Banned` flag, and leaves the other records alone;
inspect, promote, fire and every run that does not answer 200 leave `BanHistory` and
`Banned` of every record unchanged; and the repository stays keyed by email. -/
theorem ledger_append_only (op : Operation) (env : Env) (r : Request) (executor : User)
    (us : UserService) (hk : us.repository.Keyed) :
    (∀ key user, us.repository.Get key = Except.ok user →
      ∃ user', (op.handler env r executor us).2.repository.Get key = Except.ok user' ∧
        user.BanHistory <+: user'.BanHistory) ∧
    ((op = .ban ∨ op = .unban) → succeeded (op.handler env r executor us).1 = true →
      ∃ target user' entry,
        us.repository.Get target.Email = Except.ok target ∧
        (op.handler env r executor us).2.repository.Get target.Email = Except.ok user' ∧
        user'.BanHistory = target.BanHistory ++ [entry] ∧
        user'.BanHistory.length = target.BanHistory.length + 1 ∧
        (entry.IsBan = true ↔ op = .ban) ∧
        user'.Banned = entry.IsBan ∧
        ∀ key, key ≠ target.Email →
          (op.handler env r executor us).2.repository.Get key = us.repository.Get key) ∧
    ((op = .inspect ∨ op = .promote ∨ op = .fire ∨
        succeeded (op.handler env r executor us).1 = false) →
      ∀ key user, us.repository.Get key = Except.ok user →
        ∃ user', (op.handler env r executor us).2.repository.Get key = Except.ok user' ∧
          user'.BanHistory = user.BanHistory ∧ user'.Banned = user.Banned) ∧
    (op.handler env r executor us).2.repository.Keyed := by
  rcases run_shape op env r executor us with
    ⟨hus, _, hfail⟩ | ⟨email, target, user', err', _, htr, hus, _⟩ |
    ⟨email, target, user', body, msg, hget, htr, _, hnew, hemail, hop⟩
  · rw [hus]
    refine ⟨fun key user h => ⟨user, h, List.prefix_refl _⟩, ?_,
      fun _ key user h => ⟨user, h, rfl, rfl⟩, hk⟩
    intro hops hsucc
    have hne : op ≠ .inspect := by rcases hops with h | h <;> simp [h]
    rw [hfail hne] at hsucc
    cases hsucc
  · rw [hus, htr]
    refine ⟨fun key user h => ⟨user, h, List.prefix_refl _⟩, ?_,
      fun _ key user h => ⟨user, h, rfl, rfl⟩, hk⟩
    intro _ hsucc
    simp [succeeded] at hsucc
  · have hkey : target.Email = email := hk _ _ hget
    rw [← hkey] at hget
    have hsucc : succeeded (op.handler env r executor us).1 = true := by
      rw [htr]; simp [succeeded]
    have hext : target.BanHistory <+: user'.BanHistory := by
      rcases hop with ⟨_, _, entry, _, hh⟩ | ⟨_, _, entry, _, hh⟩ | ⟨_, _, hh⟩
      · rw [hh]; exact List.prefix_append _ _
      · rw [hh]; exact List.prefix_append _ _
      · rw [hh]
    refine ⟨?_, ?_, ?_, ?_⟩
    · intro key user h
      rw [hnew]
      by_cases hkt : key = target.Email
      · subst hkt
        rw [hget] at h
        cases h
        exact ⟨user', by simp, hext⟩
      · exact ⟨user, by simp [hkt, h], List.prefix_refl _⟩
    · intro hops _
      rcases hop with ⟨hb, hban, entry, hflag, hh⟩ | ⟨hu, hban, entry, hflag, hh⟩ |
        ⟨hpf, _, _⟩
      · refine ⟨target, user', entry, hget, by simp [hnew], hh, by simp [hh], ?_,
          by rw [hban, hflag], fun key hkt => by simp [hnew, hkt]⟩
        simp [hflag, hb]
      · refine ⟨target, user', entry, hget, by simp [hnew], hh, by simp [hh], ?_,
          by rw [hban, hflag], fun key hkt => by simp [hnew, hkt]⟩
        simp [hflag, hu]
      · rcases hops with h | h <;> rcases hpf with h' | h' <;> rw [h] at h' <;> cases h'
    · intro hops key user h
      have hsame : user'.BanHistory = target.BanHistory ∧ user'.Banned = target.Banned := by
        rcases hop with ⟨hb, _⟩ | ⟨hu, _⟩ | ⟨_, hban, hh⟩
        · rcases hops with h | h | h | h
          · rw [hb] at h; cases h
          · rw [hb] at h; cases h
          · rw [hb] at h; cases h
          · rw [hsucc] at h; cases h
        · rcases hops with h | h | h | h
          · rw [hu] at h; cases h
          · rw [hu] at h; cases h
          · rw [hu] at h; cases h
          · rw [hsucc] at h; cases h
        · exact ⟨hh, hban⟩
      rw [hnew]
      by_cases hkt : key = target.Email
      · subst hkt
        rw [hget] at h
        cases h
        exact ⟨user', by simp, hsame.1, hsame.2⟩
      · exact ⟨user, by simp [hkt, h], rfl, rfl⟩
    · intro key user h
      rw [hnew] at h
      by_cases hkt : key = target.Email
      · simp [hkt] at h
        rw [← h, hemail, hkt]
      · simp [hkt] at h
        exact hk _ _ h

/-- The sample repository is keyed by email. -/
theorem sampleRepo_keyed : sampleRepo.Keyed := by
  intro key user h
  unfold sampleRepo at h
  simp only at h
  split_ifs at h with h1 h2 h3
  · cases h; rw [h1]; rfl
  · cases h; rw [h2]; rfl
  · cases h; rw [h3]; rfl

/-- Claim C8 at the sample data: after the administrator bans `a@x.com`, the history of the
super administrator still starts with its old entries, the history of `a@x.com` has grown by
one ban entry, and the repository is still keyed by email. -/
theorem ledger_append_only_witness :
    (∃ user', (banHandler sampleEnv sampleRequest sampleAdmin ⟨sampleRepo⟩).2.repository.Get
        "boss@x.com" = Except.ok user' ∧ sampleBoss.BanHistory <+: user'.BanHistory) ∧
    (banHandler sampleEnv sampleRequest sampleAdmin ⟨sampleRepo⟩).2.repository.Get "a@x.com" =
      Except.ok { sampleTarget with
        Banned := true,
        BanHistory := [{ Executor := "admin@x.com", IsBan := true, Time := sampleEnv.now,
                         Reason := "spam" }] } ∧
    (banHandler sampleEnv sampleRequest sampleAdmin ⟨sampleRepo⟩).2.repository.Keyed :=
  ⟨(ledger_append_only .ban sampleEnv sampleRequest sampleAdmin ⟨sampleRepo⟩
      sampleRepo_keyed).1 "boss@x.com" sampleBoss rfl,
   rfl,
   (ledger_append_only .ban sampleEnv sampleRequest sampleAdmin ⟨sampleRepo⟩
      sampleRepo_keyed).2.2.2⟩

/-! ## Promote and fire -/

/-- Claim C7. For every executor and every existing target, whatever their roles, a
successful `promoteHandler` persists the target with `Role := AdminRole` and a successful
`fireHandler` persists it with `Role := UserRole`, the other fields unchanged; and a
successful promote followed by a successful fire of the same email leaves the target stored
with `Role := UserRole` and sends exactly two notifications, the promote one first. -/
theorem promote_fire_unconditional (env : Env) (executor : User) :
    (∀ (r : Request) (us : UserService) (params : EmailParams) (target : User),
      env.decodeEmail r.body = some params →
      us.repository.Get params.Email = Except.ok target →
      (us.repository.Update target.Email { target with Role := AdminRole }).1 = none →
      (promoteHandler env r executor us).1 =
        [.repoGet params.Email,
         .repoUpdate target.Email { target with Role := AdminRole } none,
         .writeHeader 200,
         .write ("user " ++ target.Email ++ " promoted to admin"),
         .notify ("admin " ++ executor.Email ++ " promoted user " ++ target.Email)] ∧
      (promoteHandler env r executor us).2.repository.Get target.Email =
        Except.ok { target with Role := AdminRole }) ∧
    (∀ (r : Request) (us : UserService) (params : EmailParams) (target : User),
      env.decodeEmail r.body = some params →
      us.repository.Get params.Email = Except.ok target →
      (us.repository.Update target.Email { target with Role := UserRole }).1 = none →
      (fireHandler env r executor us).1 =
        [.repoGet params.Email,
         .repoUpdate target.Email { target with Role := UserRole } none,
         .writeHeader 200,
         .write ("admin " ++ target.Email ++ " downgraded to user"),
         .notify ("admin " ++ executor.Email ++ " fired admin " ++ target.Email)] ∧
      (fireHandler env r executor us).2.repository.Get target.Email =
        Except.ok { target with Role := UserRole }) ∧
    (∀ (r1 r2 : Request) (executor2 : User) (us : UserService) (params : EmailParams)
        (target : User),
      env.decodeEmail r1.body = some params → env.decodeEmail r2.body = some params →
      us.repository.Get params.Email = Except.ok target →
      (us.repository.Update target.Email { target with Role := AdminRole }).1 = none →
      (us.repository.Update target.Email { target with Role := UserRole }).1 = none →
      (fireHandler env r2 executor2 (promoteHandler env r1 executor us).2).2.repository.Get
          target.Email = Except.ok { target with Role := UserRole } ∧
      notifications ((promoteHandler env r1 executor us).1 ++
          (fireHandler env r2 executor2 (promoteHandler env r1 executor us).2).1) =
        ["admin " ++ executor.Email ++ " promoted user " ++ target.Email,
         "admin " ++ executor2.Email ++ " fired admin " ++ target.Email]) := by
  have hnone : ∀ (repo : Repository) (key : String) (user : User),
      (repo.Update key user).1 = none → repo.updateErr key user = none := by
    intro repo key user h
    unfold Repository.Update at h
    split at h
    · simp at h
    · assumption
  refine ⟨?_, ?_, ?_⟩
  · intro r us params target hdec hget hupd
    have hU := update_ok _ _ _ (hnone _ _ _ hupd)
    simp [promoteHandler, hdec, hget, hU, StatusOK]
  · intro r us params target hdec hget hupd
    have hU := update_ok _ _ _ (hnone _ _ _ hupd)
    simp [fireHandler, hdec, hget, hU, StatusOK]
  · intro r1 r2 executor2 us params target hdec1 hdec2 hget hupd1 hupd2
    have hu1 := hnone _ _ _ hupd1
    have hu2 := hnone _ _ _ hupd2
    by_cases hkey : params.Email = target.Email
    · have hget' := hget
      rw [hkey] at hget'
      simp [promoteHandler, fireHandler, hdec1, hdec2, hget', hkey, Repository.Update,
        hu1, hu2, notifications]
    · simp [promoteHandler, fireHandler, hdec1, hdec2, hget, hkey, Repository.Update,
        hu1, hu2, notifications]

/-- Claim C7 at the sample data: a plain user promotes the super administrator, who is then
stored as an administrator; promoting and then firing `a@x.com` leaves a plain user and
sends the two notifications in order. -/
theorem promote_fire_unconditional_witness :
    (promoteHandler sampleEnv bossRequest sampleTarget ⟨sampleRepo⟩).2.repository.Get
        "boss@x.com" = Except.ok { sampleBoss with Role := AdminRole } ∧
    (fireHandler sampleEnv sampleRequest sampleAdmin
        (promoteHandler sampleEnv sampleRequest sampleTarget ⟨sampleRepo⟩).2).2.repository.Get
          "a@x.com" = Except.ok { sampleTarget with Role := UserRole } ∧
    notifications ((promoteHandler sampleEnv sampleRequest sampleTarget ⟨sampleRepo⟩).1 ++
        (fireHandler sampleEnv sampleRequest sampleAdmin
          (promoteHandler sampleEnv sampleRequest sampleTarget ⟨sampleRepo⟩).2).1) =
      ["admin a@x.com promoted user a@x.com", "admin admin@x.com fired admin a@x.com"] :=
  ⟨((promote_fire_unconditional sampleEnv sampleTarget).1 bossRequest ⟨sampleRepo⟩
      { Email := "boss@x.com" } sampleBoss rfl rfl rfl).2,
   (promote_fire_unconditional sampleEnv sampleTarget).2.2 sampleRequest sampleRequest
      sampleAdmin ⟨sampleRepo⟩ { Email := "a@x.com" } sampleTarget rfl rfl rfl rfl rfl⟩

end CakeApi
